import Mathlib

/-!
Verification development for a PubMed-record analysis pipeline
(`streamlit_app.py` + `ss2.py`).

Strings are modelled as `List Char`.  The Python regular expressions used by
the source are each translated into an equivalent executable Lean function:
the patterns involved are simple enough that their backtracking behaviour is
deterministic, and the translation notes argue case by case why the Lean
function computes exactly the Python match result.
-/

namespace PubMed

/-- Python's `\s` class (ASCII range): space, tab, newline, carriage return,
vertical tab, form feed.  `str.strip()` strips the same set on ASCII text. -/
def isWs (c : Char) : Bool :=
  c.toNat = 32 || c.toNat = 9 || c.toNat = 10 || c.toNat = 13 || c.toNat = 11 || c.toNat = 12

/-- The regex class `[A-Z]`. -/
def isUpper (c : Char) : Bool := 65 ≤ c.toNat && c.toNat ≤ 90

/-- Python's `\d` (ASCII range `0`-`9`). -/
def isDigit (c : Char) : Bool := 48 ≤ c.toNat && c.toNat ≤ 57

/-- Match a literal pattern at the start of a string, returning the remainder. -/
def chopStart : List Char → List Char → Option (List Char)
  | [], s => some s
  | _ :: _, [] => none
  | p :: ps, c :: cs => if p = c then chopStart ps cs else none

/-- Python `str.strip()`: remove a trailing whitespace run. -/
def dropTrailingWs : List Char → List Char
  | [] => []
  | c :: rest =>
    match dropTrailingWs rest with
    | [] => if isWs c then [] else [c]
    | r => c :: r

/-- Python `str.strip()`: leading run then trailing run. -/
def pyStrip (l : List Char) : List Char := dropTrailingWs (l.dropWhile isWs)

/-- Python `str.split("\n")`. -/
def splitNl : List Char → List (List Char)
  | [] => [[]]
  | '\n' :: rest => [] :: splitNl rest
  | c :: rest =>
    match splitNl rest with
    | [] => [[c]]
    | x :: xs => (c :: x) :: xs

/-- `" ".join(...)`. -/
def joinSpaces : List (List Char) → List Char
  | [] => []
  | [x] => x
  | x :: xs => x ++ ' ' :: joinSpaces xs

/-- One step of `re.sub(r"\s+", " ", s)` (the pandas
`.str.replace(r"\s+", " ", regex=True)` cleanup): every maximal whitespace run
becomes a single space.  The flag records whether we are inside a run. -/
def squeezeAux (inRun : Bool) : List Char → List Char
  | [] => []
  | c :: rest =>
    if isWs c then
      if inRun then squeezeAux true rest else ' ' :: squeezeAux true rest
    else c :: squeezeAux false rest

/-- The pandas per-column cleanup of `parse_pubmed_file`:
`.str.replace(r"\s+", " ", regex=True).str.strip()`. -/
def collapseWs (l : List Char) : List Char := pyStrip (squeezeAux false l)

/-- The zero-width lookahead `(?=\n[A-Z]{2,}\s*-)` used by the title and
abstract patterns of `parse_pubmed_entry`.  The greedy `[A-Z]{2,}` is forced
to take the whole uppercase run (shorter choices leave an uppercase letter
where `\s*-` must match, which fails), so the check is deterministic. -/
def lookaheadCode (s : List Char) : Bool :=
  match s with
  | '\n' :: rest =>
    decide (2 ≤ (rest.takeWhile isUpper).length) &&
      (match (rest.dropWhile isUpper).dropWhile isWs with
       | '-' :: _ => true
       | _ => false)
  | _ => false

/-- Scan for the first position where `lookaheadCode` fires (this is the
non-greedy `(.*?)` with the lookahead, under `re.DOTALL`): returns the group
matched so far and the remaining suffix at the boundary. -/
def findBoundary : List Char → Option (List Char × List Char)
  | [] => none
  | c :: rest =>
    if lookaheadCode (c :: rest) then some ([], c :: rest)
    else
      match findBoundary rest with
      | some (g, b) => some (c :: g, b)
      | none => none

/-- Match `<code>\s*-\s*(.*?)(?=\n[A-Z]{2,}\s*-)` anchored at the start of
`s`, returning the group.  The first `\s*` is forced to the full whitespace
run (a shorter choice leaves whitespace where `-` must match).  The second
`\s*` is greedy: with the full run consumed the lazy group scans from the
first non-whitespace position (`findBoundary`).  If no boundary exists there,
the only backtracking alternative Python has left is giving the last run
character back to the group, which succeeds exactly when the lookahead fires
on that character (it must be the `\n` of a following field code); the group
is then empty. -/
def matchCodeAt (code : List Char) (s : List Char) : Option (List Char) :=
  match chopStart code s with
  | none => none
  | some s1 =>
    match s1.dropWhile isWs with
    | '-' :: s3 =>
      match findBoundary (s3.dropWhile isWs) with
      | some (g, _) => some g
      | none =>
        match (s3.takeWhile isWs).getLast? with
        | some c => if lookaheadCode (c :: s3.dropWhile isWs) then some [] else none
        | none => none
    | _ => none

/-- `re.search` for the title/abstract pattern: leftmost start wins. -/
def searchCode (code : List Char) : List Char → Option (List Char)
  | [] => none
  | c :: rest =>
    match matchCodeAt code (c :: rest) with
    | some g => some g
    | none => searchCode code rest

/-- `re.search(r"PMID-\s*(\d+)", entry)`: after the literal `PMID-` the greedy
`\s*` is forced to the whole whitespace run (shorter choices leave whitespace
where `\d` must match), then at least one digit must follow; otherwise the
scan resumes at the next position. -/
def searchPmidNum : List Char → Option (List Char)
  | [] => none
  | c :: rest =>
    match chopStart ['P', 'M', 'I', 'D', '-'] (c :: rest) with
    | some s1 =>
      let ds := (s1.dropWhile isWs).takeWhile isDigit
      if ds.isEmpty then searchPmidNum rest else some ds
    | none => searchPmidNum rest

/-- The `\s*([^\n]+)` part of `re.search(r"DP\s*-\s*([^\n]+)", entry)` after
the dash.  The greedy `\s*` normally consumes the whole whitespace run, whose
follower (a non-whitespace character) starts the `[^\n]+` group; if the run
reaches the end of the entry, Python backtracks the `\s*` until the character
it gives back is not a newline, and the group is that single character. -/
def dpGroup (s3 : List Char) : Option (List Char) :=
  match s3.dropWhile isWs with
  | [] =>
    match ((s3.takeWhile isWs).reverse.dropWhile (fun c => c = '\n')) with
    | [] => none
    | c :: _ => some [c]
  | c :: r => some ((c :: r).takeWhile (fun c => !(c = '\n')))

/-- `re.search(r"DP\s*-\s*([^\n]+)", entry)`. -/
def searchDp : List Char → Option (List Char)
  | [] => none
  | c :: rest =>
    match chopStart ['D', 'P'] (c :: rest) with
    | some s1 =>
      match s1.dropWhile isWs with
      | '-' :: s3 =>
        match dpGroup s3 with
        | some g => some g
        | none => searchDp rest
      | _ => searchDp rest
    | none => searchDp rest

/-- `re.search(r"\d{4}", s)`: the first run of four digits. -/
def searchYear4 : List Char → Option (List Char)
  | a :: b :: c :: d :: rest =>
    if isDigit a && isDigit b && isDigit c && isDigit d then some [a, b, c, d]
    else searchYear4 (b :: c :: d :: rest)
  | _ => none

/-- The twelve month abbreviations, in the alternation order of the source. -/
def monthToks : List (List Char) :=
  [['J','a','n'], ['F','e','b'], ['M','a','r'], ['A','p','r'], ['M','a','y'], ['J','u','n'],
   ['J','u','l'], ['A','u','g'], ['S','e','p'], ['O','c','t'], ['N','o','v'], ['D','e','c']]

/-- `re.search(r"(Jan|Feb|...|Dec)", s)`: first position, first alternative. -/
def searchMonth : List Char → Option (List Char)
  | [] => none
  | c :: rest =>
    match monthToks.find? (fun m => m.isPrefixOf (c :: rest)) with
    | some m => some m
    | none => searchMonth rest

/-- The per-field cleanup of `parse_pubmed_entry`:
`" ".join(line.strip() for line in value.split("\n"))` (no blank-line filter). -/
def fieldClean (g : List Char) : List Char := joinSpaces ((splitNl g).map pyStrip)

/-- A parsed PubMed record (`parse_pubmed_entry`'s result dict, and a row of
the `parse_pubmed_file` DataFrame). -/
structure RawParsed where
  pmid : List Char
  title : List Char
  abstract : List Char
  publication_date : List Char
deriving DecidableEq

/-- `parse_pubmed_entry` (streamlit_app.py lines 27-71). -/
def parse_pubmed_entry (entry : List Char) : RawParsed :=
  let pmid := match searchPmidNum entry with | some d => d | none => []
  let title := match searchCode ['T', 'I'] entry with | some g => fieldClean g | none => []
  let abstract := match searchCode ['A', 'B'] entry with | some g => fieldClean g | none => []
  let pub :=
    match searchDp entry with
    | some g0 =>
      let g := pyStrip g0
      match searchYear4 g, searchMonth g with
      | some y, some m => m ++ ' ' :: y
      | some y, none => y
      | none, _ => []
    | none => []
  ⟨pmid, title, abstract, pub⟩

/-- `content.replace("\r\n", "\n")` (left-to-right, non-overlapping). -/
def replaceCRLF : List Char → List Char
  | '\r' :: '\n' :: rest => '\n' :: replaceCRLF rest
  | c :: rest => c :: replaceCRLF rest
  | [] => []

/-- `content.split("\n\nPMID- ")` (leftmost, non-overlapping occurrences). -/
def splitPM : List Char → List (List Char)
  | '\n' :: '\n' :: 'P' :: 'M' :: 'I' :: 'D' :: '-' :: ' ' :: rest => [] :: splitPM rest
  | c :: rest =>
    match splitPM rest with
    | [] => [[c]]
    | x :: xs => (c :: x) :: xs
  | [] => [[]]

def pmidMarker : List Char := ['P', 'M', 'I', 'D', '-', ' ']

/-- The re-prefixing step of `parse_pubmed_file`: the first chunk gets the
`PMID- ` marker only if it does not already start with it; every later chunk
(the separator was removed by the split) gets it back unconditionally. -/
def addMarkers : List (List Char) → List (List Char)
  | [] => []
  | e :: rest =>
    (if pmidMarker.isPrefixOf e then e else pmidMarker ++ e) :: rest.map (fun x => pmidMarker ++ x)

/-- The per-entry loop of `parse_pubmed_file`: skip entries that strip to
empty, parse, keep only records with a non-empty pmid. -/
def parseEntries : List (List Char) → List RawParsed
  | [] => []
  | e :: es =>
    if (pyStrip e).isEmpty then parseEntries es
    else
      if (parse_pubmed_entry e).pmid.isEmpty then parseEntries es
      else parse_pubmed_entry e :: parseEntries es

/-- The pandas cleanup applied to every (string) column of the DataFrame. -/
def cleanRecord (r : RawParsed) : RawParsed :=
  ⟨collapseWs r.pmid, collapseWs r.title, collapseWs r.abstract, collapseWs r.publication_date⟩

/-- `parse_pubmed_file` (streamlit_app.py lines 74-111). -/
def parse_pubmed_file (content : List Char) : List RawParsed :=
  (parseEntries (addMarkers (splitPM (replaceCRLF content)))).map cleanRecord

/-! ## The analysis side (`ss2.py` and `run_analysis`)

A raw analysis payload (the keyword arguments of `PaperAnalysis(**d)`) is a
record of optional JSON-like values: `none` means the key is absent, and
`RawVal.null` is Python's `None`.  Validation follows the declared pydantic
v2 field types in the library's default (lax) mode, including its documented
cross-type coercions: a `bool` field also accepts the integers/floats `0`
and `1` and boolean-like strings, and `int`/`float` positions also accept
numeric strings (and `int` accepts integral floats).  String fields accept
only strings (no coercion from numbers or containers).  Value shapes with no
`RawVal` counterpart (bytes, `Decimal`) and exotic numeric-string forms
(exponents, `inf`/`nan`, underscores, surrounding whitespace) are outside
the model. -/

inductive RawVal where
  | null
  | boolean (b : Bool)
  | int (n : Int)
  | num (q : Rat)
  | str (s : List Char)
  | list (xs : List RawVal)
  | dict (pairs : List (List Char × RawVal))

/-- A Python exception / pydantic `ValidationError` message. -/
def PyErr : Type := List Char

def schemaErr : PyErr := ['S','c','h','e','m','a','V','i','o','l','a','t','i','o','n']

/-- The keyword arguments of a `PaperAnalysis(...)` call, one optional raw
value per declared field, in declaration order. -/
structure RawPayload where
  title : Option RawVal
  publication_date : Option RawVal
  is_relevant : Option RawVal
  relevance_explanation : Option RawVal
  study_type : Option RawVal
  sample_size : Option RawVal
  key_findings : Option RawVal
  stone_free_rate : Option RawVal
  methodology_quality : Option RawVal
  limitations : Option RawVal
  pmid : Option RawVal
  abstract : Option RawVal

/-- The two permitted shapes of `stone_free_rate`:
`Optional[Union[float, Dict[str, float]]]`. -/
inductive StoneFreeRate where
  | scalar (q : Rat)
  | byGroup (groups : List (List Char × Rat))
deriving DecidableEq

/-- A validated `PaperAnalysis` model instance (ss2.py lines 10-22). -/
structure PaperAnalysis where
  title : List Char
  publication_date : Option (List Char)
  is_relevant : Bool
  relevance_explanation : List Char
  study_type : Option (List Char)
  sample_size : Option Int
  key_findings : Option (List Char)
  stone_free_rate : Option StoneFreeRate
  methodology_quality : Option (List Char)
  limitations : Option (List Char)
  pmid : Option (List Char)
  abstract : Option (List Char)
deriving DecidableEq

/-- Field of declared type `str` (required, not nullable). -/
def vStr : Option RawVal → Except PyErr (List Char)
  | some (.str s) => .ok s
  | _ => .error schemaErr

/-- Field of declared type `Optional[str]` with no default: the key is
required but may be `None`. -/
def vOptStr : Option RawVal → Except PyErr (Option (List Char))
  | some (.str s) => .ok (some s)
  | some .null => .ok none
  | _ => .error schemaErr

/-- Field of declared type `Optional[str] = None`: the key may be absent. -/
def vOptStrD : Option RawVal → Except PyErr (Option (List Char))
  | none => .ok none
  | some .null => .ok none
  | some (.str s) => .ok (some s)
  | _ => .error schemaErr

/-- ASCII lower-casing, as Python's case-insensitive bool-string match. -/
def toLowerCh (c : Char) : Char :=
  if 65 ≤ c.toNat ∧ c.toNat ≤ 90 then Char.ofNat (c.toNat + 32) else c

/-- The falsy strings of pydantic v2's lax `bool` coercion. -/
def boolStrFalse : List (List Char) :=
  [['f','a','l','s','e'], ['f'], ['n'], ['n','o'], ['o','f','f'], ['0']]

/-- The truthy strings of pydantic v2's lax `bool` coercion. -/
def boolStrTrue : List (List Char) :=
  [['t','r','u','e'], ['t'], ['y'], ['y','e','s'], ['o','n'], ['1']]

/-- Pydantic v2 lax coercion to `bool`: booleans; the ints/floats `0` and
`1`; boolean-like strings, case-insensitively.  Everything else (other
numbers, other strings, `None`, containers) is rejected. -/
def pyBoolLax (v : RawVal) : Option Bool :=
  match v with
  | .boolean b => some b
  | .int n => if n = 0 then some false else if n = 1 then some true else none
  | .num q => if q = 0 then some false else if q = 1 then some true else none
  | .str s =>
    let l := s.map toLowerCh
    if boolStrFalse.contains l then some false
    else if boolStrTrue.contains l then some true
    else none
  | _ => none

/-- The numeric value of a digit string. -/
def natOfDigits (l : List Char) : Nat :=
  l.foldl (fun a c => a * 10 + (c.toNat - 48)) 0

/-- An unsigned decimal literal: digits with at most one point and digits on
at least one side (`"123"`, `"12.5"`, `".5"`, `"5."`). -/
def parseUnsignedDec (l : List Char) : Option Rat :=
  let ip := l.takeWhile isDigit
  match l.dropWhile isDigit with
  | [] => if ip.isEmpty then none else some (natOfDigits ip : Rat)
  | '.' :: fp =>
    if fp.all isDigit && !(ip.isEmpty && fp.isEmpty) then
      some ((natOfDigits ip : Rat) + (natOfDigits fp : Rat) / ((10 : Rat) ^ fp.length))
    else none
  | _ => none

/-- Pydantic v2 lax `str -> float` coercion: an optionally signed decimal
literal.  (Exponents, `inf`/`nan`, underscores and surrounding whitespace,
also accepted by Python's `float()`, are not modelled.) -/
def parseDecimal : List Char → Option Rat
  | '+' :: rest => parseUnsignedDec rest
  | '-' :: rest => (parseUnsignedDec rest).map (fun q => -q)
  | l => parseUnsignedDec l

/-- Pydantic v2 lax `str -> int` coercion: an optionally signed digit
string. -/
def parseIntStr : List Char → Option Int
  | '+' :: rest =>
    if !rest.isEmpty && rest.all isDigit then some (natOfDigits rest : Int) else none
  | '-' :: rest =>
    if !rest.isEmpty && rest.all isDigit then some (-(natOfDigits rest : Int)) else none
  | l => if !l.isEmpty && l.all isDigit then some (natOfDigits l : Int) else none

/-- Field of declared type `bool` (required), with the lax coercions. -/
def vBool : Option RawVal → Except PyErr Bool
  | some v =>
    match pyBoolLax v with
    | some b => .ok b
    | none => .error schemaErr
  | none => .error schemaErr

/-- Field of declared type `Optional[int]` with no default: ints, integral
floats and numeric strings are accepted (lax mode); `bool` is explicitly
rejected by pydantic v2. -/
def vOptInt : Option RawVal → Except PyErr (Option Int)
  | some (.int n) => .ok (some n)
  | some (.num q) => if q.den = 1 then .ok (some q.num) else .error schemaErr
  | some (.str s) =>
    match parseIntStr s with
    | some n => .ok (some n)
    | none => .error schemaErr
  | some .null => .ok none
  | _ => .error schemaErr

/-- A value for a `float` position: a number, or a numeric string (lax
coercion); `bool` is rejected by pydantic v2, like for `int`. -/
def vRat : RawVal → Except PyErr Rat
  | .num q => .ok q
  | .int n => .ok (n : Rat)
  | .str s =>
    match parseDecimal s with
    | some q => .ok q
    | none => .error schemaErr
  | _ => .error schemaErr

/-- The values of a `Dict[str, float]` must all be numbers. -/
def vGroups : List (List Char × RawVal) → Except PyErr (List (List Char × Rat))
  | [] => .ok []
  | (k, v) :: rest =>
    match vRat v, vGroups rest with
    | .ok q, .ok gs => .ok ((k, q) :: gs)
    | .error e, _ => .error e
    | _, .error e => .error e

/-- Field `stone_free_rate : Optional[Union[float, Dict[str, float]]]`
(no default): a number, a mapping of string to number, `None` — or, in lax
mode, a numeric string / a mapping whose values are lax float-coercible
(the union members have disjoint input shapes, so smart-union member order
does not matter). -/
def vSfr : Option RawVal → Except PyErr (Option StoneFreeRate)
  | some (.num q) => .ok (some (.scalar q))
  | some (.int n) => .ok (some (.scalar (n : Rat)))
  | some (.str s) =>
    match parseDecimal s with
    | some q => .ok (some (.scalar q))
    | none => .error schemaErr
  | some (.dict kvs) =>
    match vGroups kvs with
    | .ok gs => .ok (some (.byGroup gs))
    | .error e => .error e
  | some .null => .ok none
  | _ => .error schemaErr

/-- `". ".join(xs)`: every element must be a string (Python raises
`TypeError` otherwise). -/
def joinStrs : List RawVal → Except PyErr (List Char)
  | [] => .ok []
  | [.str s] => .ok s
  | .str s :: x :: rest =>
    match joinStrs (x :: rest) with
    | .ok t => .ok (s ++ '.' :: ' ' :: t)
    | .error e => .error e
  | _ => .error ['T','y','p','e','E','r','r','o','r']

/-- The body of the `convert_list_to_string` validator (ss2.py lines 24-28):
if the value is a list, join with `". "`; otherwise return it unchanged. -/
def convert_list_to_string (v : RawVal) : Except PyErr RawVal :=
  match v with
  | .list xs =>
    match joinStrs xs with
    | .ok s => .ok (.str s)
    | .error e => .error e
  | _ => .ok v

/-- `". ".join(f"{k}: {v}" for k, v in d.items())`, rendered for
string-valued entries (the only shape the surrounding development applies it
to; the f-string rendering of non-string values is not modelled and is
reported as an error). -/
def renderPairs : List (List Char × RawVal) → Except PyErr (List Char)
  | [] => .ok []
  | [(k, .str s)] => .ok (k ++ ':' :: ' ' :: s)
  | (k, .str s) :: x :: rest =>
    match renderPairs (x :: rest) with
    | .ok t => .ok (k ++ ':' :: ' ' :: s ++ '.' :: ' ' :: t)
    | .error e => .error e
  | _ => .error ['u','n','m','o','d','e','l','l','e','d']

/-- The body of the `convert_dict_to_string` validator (ss2.py lines 30-34):
if the value is a mapping, render `"<key>: <value>"` entries joined with
`". "`; otherwise return it unchanged. -/
def convert_dict_to_string (v : RawVal) : Except PyErr RawVal :=
  match v with
  | .dict kvs =>
    match renderPairs kvs with
    | .ok s => .ok (.str s)
    | .error e => .error e
  | _ => .ok v

/-- Embed a validated `Optional[str]` value back into a Python value, as the
`mode='after'` field validators receive it. -/
def encOptStr : Option (List Char) → RawVal
  | none => .null
  | some s => .str s

/-- Run the `limitations` after-validator on the already-validated value.
`field_validator` without a `mode` argument defaults to `mode='after'`, so
the validator only ever sees a value that passed `Optional[str]` validation. -/
def applyAfterLim (v : Option (List Char)) : Except PyErr (Option (List Char)) :=
  match convert_list_to_string (encOptStr v) with
  | .ok (.str s) => .ok (some s)
  | .ok .null => .ok none
  | .ok _ => .error schemaErr
  | .error e => .error e

/-- Run the `key_findings` after-validator on the already-validated value. -/
def applyAfterKf (v : Option (List Char)) : Except PyErr (Option (List Char)) :=
  match convert_dict_to_string (encOptStr v) with
  | .ok (.str s) => .ok (some s)
  | .ok .null => .ok none
  | .ok _ => .error schemaErr
  | .error e => .error e

/-- `PaperAnalysis(**payload)`: pydantic core validation of every declared
field in declaration order, with each field's `mode='after'` validator run on
that field's validated value.  Pydantic collects all field errors into one
`ValidationError`; here the first error is reported, which is equivalent for
success/failure. -/
def mkPaperAnalysis (p : RawPayload) : Except PyErr PaperAnalysis := do
  let t ← vStr p.title
  let pd ← vOptStr p.publication_date
  let ir ← vBool p.is_relevant
  let rex ← vStr p.relevance_explanation
  let sty ← vOptStr p.study_type
  let ssz ← vOptInt p.sample_size
  let kf0 ← vOptStr p.key_findings
  let kf ← applyAfterKf kf0
  let sfr ← vSfr p.stone_free_rate
  let mq ← vOptStr p.methodology_quality
  let lim0 ← vOptStr p.limitations
  let lim ← applyAfterLim lim0
  let pm ← vOptStrD p.pmid
  let ab ← vOptStrD p.abstract
  Except.ok ⟨t, pd, ir, rex, sty, ssz, kf, sfr, mq, lim, pm, ab⟩

def encOptInt : Option Int → RawVal
  | none => .null
  | some n => .int n

def encSfr : Option StoneFreeRate → RawVal
  | none => .null
  | some (.scalar q) => .num q
  | some (.byGroup gs) => .dict (gs.map (fun g => (g.1, RawVal.num g.2)))

/-- `analysis.model_dump()`: every field is present, `None` for null
optionals. -/
def model_dump (a : PaperAnalysis) : RawPayload :=
  ⟨some (.str a.title), some (encOptStr a.publication_date), some (.boolean a.is_relevant),
   some (.str a.relevance_explanation), some (encOptStr a.study_type),
   some (encOptInt a.sample_size), some (encOptStr a.key_findings),
   some (encSfr a.stone_free_rate), some (encOptStr a.methodology_quality),
   some (encOptStr a.limitations), some (encOptStr a.pmid), some (encOptStr a.abstract)⟩

/-- `analysis_dict.update(paper_info)` in `run_analysis`: overwrite the four
bibliographic keys with the parsed record's values (all strings). -/
def overlayInfo (d : RawPayload) (paper : PubMed.RawParsed) : RawPayload :=
  { d with
    title := some (.str paper.title)
    publication_date := some (.str paper.publication_date)
    abstract := some (.str paper.abstract)
    pmid := some (.str paper.pmid) }

/-- `PaperEvaluator.evaluate_paper`: the external collaborator either fails
(transport error) or returns a raw structured response, which the client
library parses and validates against the `PaperAnalysis` model
(`completion.parse(..., response_format=PaperAnalysis)`); a validation
failure raises out of the call. -/
def evaluate_paper (resp : Except PyErr RawPayload) : Except PyErr PaperAnalysis :=
  match resp with
  | .error e => .error e
  | .ok raw => mkPaperAnalysis raw

/-- The body of the per-paper `try` block of `run_analysis` (streamlit_app.py
lines 148-173): call the collaborator, dump the analysis, overlay the four
trusted bibliographic fields, and rebuild a `PaperAnalysis`. -/
def analyze_paper (paper : PubMed.RawParsed) (resp : Except PyErr RawPayload) :
    Except PyErr PaperAnalysis :=
  match evaluate_paper resp with
  | .error e => .error e
  | .ok analysis => mkPaperAnalysis (overlayInfo (model_dump analysis) paper)

/-- The analysis loop of `run_analysis` (streamlit_app.py lines 137-176): one
collaborator response per paper, in order; a per-paper failure is caught, a
diagnostic `(title, error)` is surfaced via `st.error`, and the loop
continues.  Returns the accumulated results and the surfaced diagnostics.
(The source always has exactly one response per paper; the case of an
exhausted response list does not arise and returns empty.) -/
def run_analysis_loop :
    List PubMed.RawParsed → List (Except PyErr RawPayload) →
      List PaperAnalysis × List (List Char × PyErr)
  | [], _ => ([], [])
  | _ :: _, [] => ([], [])
  | p :: ps, r :: rs =>
    match analyze_paper p r with
    | .ok a =>
      let rest := run_analysis_loop ps rs
      (a :: rest.1, rest.2)
    | .error e =>
      let rest := run_analysis_loop ps rs
      (rest.1, (p.title, e) :: rest.2)

/-- The candidates-file step of `run_analysis` (streamlit_app.py lines
178-191): if the run produced results, the relevant subset is dumped; only
when that subset is non-empty is `candidates.json` (modelled as the optional
list of dumped records it holds) overwritten with it — otherwise the prior
file is left as it is. -/
def save_candidates (results : List PaperAnalysis) (priorFile : Option (List RawPayload)) :
    Option (List RawPayload) :=
  if results.isEmpty then priorFile
  else
    let relevant := (results.filter (fun a => a.is_relevant)).map model_dump
    if relevant.isEmpty then priorFile else some relevant

/-- `Except` success test. -/
def exOk {α : Type} : Except PyErr α → Bool
  | .ok _ => true
  | .error _ => false

/-! ## Concrete fixtures -/

/-- A raw collaborator payload in which every declared field validates. -/
def basePayload : RawPayload :=
  ⟨some (.str ['t']), some .null, some (.boolean true), some (.str ['e']),
   some .null, some .null, some .null, some .null, some .null, some .null, none, none⟩

/-- A validated analysis that is not relevant. -/
def recIrrelevant : PaperAnalysis :=
  ⟨['t','1'], none, false, ['n','o'], none, none, none, none, none, none, none, none⟩

/-- A validated analysis that is relevant. -/
def recRelevant : PaperAnalysis :=
  ⟨['t','0'], none, true, ['y','e','s'], none, none, none, none, none, none, none, none⟩

/-! ## Claims about the parser -/

/-- Claim C5: the concrete scenario of the specification: the input text
`"PMID- 123\nTI  - Hello\n      World\nAB  - Some abstract text.\nDP  - 2020 Jan 15\n"`
parses to the single record `{identifier "123", title "Hello World",
abstract "Some abstract text.", publication date "Jan 2020"}`. -/
theorem c5_concrete_parse :
    parse_pubmed_file
        ("PMID- 123\nTI  - Hello\n      World\nAB  - Some abstract text.\nDP  - 2020 Jan 15\n".toList)
      = [⟨"123".toList, "Hello World".toList, "Some abstract text.".toList, "Jan 2020".toList⟩] := by
  decide

/-- Claim C8 counterexample: the extraction used on record chunks has no
end-of-chunk alternative in its lookahead, so a title field that is the last
field of its chunk is NOT extracted: it comes back empty, contradicting the
claim that it is "still extracted (not returned as empty)". -/
theorem c8_counterexample :
    (parse_pubmed_entry ("PMID- 1\nTI  - Hello".toList)).title = []
    ∧ (parse_pubmed_entry ("PMID- 1\nTI  - Hello".toList)).title ≠ "Hello".toList := by
  constructor
  · rfl
  · decide

/-- Claim C8 (amended): field extraction returns the value matched
non-greedily from the field code up to the next newline-led field code
(two or more uppercase letters, optional whitespace, a dash); it does NOT
fall back to the end of the chunk: whatever follows the next field code
(`tail` is arbitrary) the value stops there, and a field with no subsequent
field code yields the empty string. -/
theorem c8_amended_boundary_required (tail : List Char) :
    (parse_pubmed_entry ("PMID- 1\nTI  - Hello\nAB  - ".toList ++ tail)).title = "Hello".toList
    ∧ (parse_pubmed_entry ("PMID- 1\nTI  - Hello".toList)).title = [] :=
  ⟨rfl, rfl⟩

/-- Claim C10: when a chunk contains the title (and abstract) field pattern
twice, only the first occurrence's value is extracted; the contents of the
later occurrences (`v2`, `w2` arbitrary) never influence the result. -/
theorem c10_first_occurrence_wins (v2 w2 : List Char) :
    (parse_pubmed_entry
        ("PMID- 1\nTI  - hello\nAB  - world\nTI  - ".toList ++ v2
          ++ "\nAB  - ".toList ++ w2 ++ "\nZZ  - end".toList)).title = "hello".toList
    ∧ (parse_pubmed_entry
        ("PMID- 1\nTI  - hello\nAB  - world\nTI  - ".toList ++ v2
          ++ "\nAB  - ".toList ++ w2 ++ "\nZZ  - end".toList)).abstract = "world".toList :=
  ⟨rfl, rfl⟩

/-! ## Claims about normalization -/

/-- Claim C2: the source attaches `convert_list_to_string` with
`field_validator`'s default `mode='after'`, so the validator runs only after
core validation of `limitations : Optional[str]` has already rejected a
list.  At the specification's own concrete input the construction therefore
raises instead of joining, even though the validator body (second conjunct)
implements exactly the join the specification describes. -/
theorem c2_limitations_list_rejected :
    exOk (mkPaperAnalysis
        { basePayload with
          limitations := some (.list [.str "Small sample".toList, .str "Short follow-up".toList]) })
      = false
    ∧ convert_list_to_string (.list [.str "Small sample".toList, .str "Short follow-up".toList])
        = .ok (.str "Small sample. Short follow-up".toList) :=
  ⟨rfl, rfl⟩

/-- Claim C9: for a payload whose `key_findings` is a mapping — one of the
claim's "allowed shapes" — normalization does not succeed at all (core
validation of `Optional[str]` rejects the mapping before the `mode='after'`
validator can coerce it), so the claimed idempotence over those shapes fails;
the validator body (second conjunct) shows the rendering the specification
expected. -/
theorem c9_mapping_shape_rejected :
    exOk (mkPaperAnalysis
        { basePayload with
          key_findings := some (.dict [("Finding".toList, .str "improved".toList)]) })
      = false
    ∧ convert_dict_to_string (.dict [("Finding".toList, .str "improved".toList)])
        = .ok (.str "Finding: improved".toList) :=
  ⟨rfl, rfl⟩

/-! ## Claims about persistence -/

/-- Claim C7 counterexample: a run whose results contain no relevant record
leaves the prior candidates file untouched, so after that run the persisted
file does not contain "exactly the subset of that run's AnalysisRecords whose
is_relevant flag is true" (which is empty) and no overwrite happens. -/
theorem c7_counterexample :
    save_candidates [recIrrelevant] (some [model_dump recRelevant])
        = some [model_dump recRelevant]
    ∧ ([recIrrelevant].filter (fun a => a.is_relevant)).map model_dump = []
    ∧ some [model_dump recRelevant] ≠ (some [] : Option (List RawPayload)) := by
  refine ⟨rfl, rfl, ?_⟩
  intro h
  simp at h

/-- Claim C7 (amended): when a run produces at least one relevant record the
candidates file is overwritten with exactly the relevant subset (no merge
with the prior file); when it produces none, the prior file is left
unchanged. -/
theorem c7_amended_conditional_overwrite (results : List PaperAnalysis)
    (priorFile : Option (List RawPayload)) :
    (results.filter (fun a => a.is_relevant) ≠ [] →
        save_candidates results priorFile
          = some ((results.filter (fun a => a.is_relevant)).map model_dump))
    ∧ (results.filter (fun a => a.is_relevant) = [] →
        save_candidates results priorFile = priorFile) := by
  constructor
  · intro h
    cases results with
    | nil => simp at h
    | cons a as =>
      unfold save_candidates
      rw [if_neg (by simp), if_neg (by simp [List.isEmpty_iff, h])]
  · intro h
    cases results with
    | nil => rfl
    | cons a as =>
      unfold save_candidates
      rw [if_neg (by simp), if_pos (by simp [List.isEmpty_iff, h])]

/-! ## Inversion of a successful `PaperAnalysis` construction -/

theorem exBind_ok {α β : Type} {x : Except PyErr α} {f : α → Except PyErr β} {b : β}
    (h : x >>= f = Except.ok b) : ∃ a, x = Except.ok a ∧ f a = Except.ok b := by
  cases x with
  | error e => exact Except.noConfusion h
  | ok a => exact ⟨a, rfl, h⟩

/-- A successful construction validated every field; the result's fields are
the validators' outputs. -/
theorem mk_inv (p : RawPayload) (r : PaperAnalysis) (h : mkPaperAnalysis p = Except.ok r) :
    vStr p.title = .ok r.title
    ∧ vOptStr p.publication_date = .ok r.publication_date
    ∧ vBool p.is_relevant = .ok r.is_relevant
    ∧ vStr p.relevance_explanation = .ok r.relevance_explanation
    ∧ vSfr p.stone_free_rate = .ok r.stone_free_rate
    ∧ vOptStrD p.pmid = .ok r.pmid
    ∧ vOptStrD p.abstract = .ok r.abstract := by
  unfold mkPaperAnalysis at h
  obtain ⟨t, h1, h⟩ := exBind_ok h
  obtain ⟨pd, h2, h⟩ := exBind_ok h
  obtain ⟨ir, h3, h⟩ := exBind_ok h
  obtain ⟨rex, h4, h⟩ := exBind_ok h
  obtain ⟨sty, h5, h⟩ := exBind_ok h
  obtain ⟨ssz, h6, h⟩ := exBind_ok h
  obtain ⟨kf0, h7, h⟩ := exBind_ok h
  obtain ⟨kf, h8, h⟩ := exBind_ok h
  obtain ⟨sfr, h9, h⟩ := exBind_ok h
  obtain ⟨mq, h10, h⟩ := exBind_ok h
  obtain ⟨lim0, h11, h⟩ := exBind_ok h
  obtain ⟨lim, h12, h⟩ := exBind_ok h
  obtain ⟨pm, h13, h⟩ := exBind_ok h
  obtain ⟨ab, h14, h⟩ := exBind_ok h
  injection h with h
  subst h
  exact ⟨h1, h2, h3, h4, h9, h13, h14⟩

/-- Claim C1: whenever the per-paper analysis step succeeds, the resulting
record's title, publication date, pmid and abstract equal the originating
parsed record's values — whatever the collaborator's raw payload contained
for those four fields, the `analysis_dict.update(paper_info)` overlay
replaced them before the final `PaperAnalysis(**analysis_dict)`. -/
theorem c1_overlay_trusted_fields (raw : RawPayload) (paper : RawParsed) (r : PaperAnalysis)
    (h : analyze_paper paper (Except.ok raw) = Except.ok r) :
    r.title = paper.title
    ∧ r.publication_date = some paper.publication_date
    ∧ r.pmid = some paper.pmid
    ∧ r.abstract = some paper.abstract := by
  have h' : (match mkPaperAnalysis raw with
      | Except.error e => Except.error e
      | Except.ok analysis => mkPaperAnalysis (overlayInfo (model_dump analysis) paper))
        = Except.ok r := h
  cases hm : mkPaperAnalysis raw with
  | error e => rw [hm] at h'; exact Except.noConfusion h'
  | ok a =>
    rw [hm] at h'
    obtain ⟨h1, h2, _, _, _, h6, h7⟩ := mk_inv _ _ h'
    have h1' : vStr (some (.str paper.title)) = Except.ok r.title := h1
    have h2' : vOptStr (some (.str paper.publication_date)) = Except.ok r.publication_date := h2
    have h6' : vOptStrD (some (.str paper.pmid)) = Except.ok r.pmid := h6
    have h7' : vOptStrD (some (.str paper.abstract)) = Except.ok r.abstract := h7
    simp only [vStr, vOptStr, vOptStrD, Except.ok.injEq] at h1' h2' h6' h7'
    exact ⟨h1'.symm, h2'.symm, h6'.symm, h7'.symm⟩

def bibFixture : RawParsed :=
  ⟨"42".toList, "Real title".toList, "Real abstract".toList, "Jan 2020".toList⟩

/-- A collaborator payload that lies about all four bibliographic fields. -/
def lyingPayload : RawPayload :=
  { basePayload with
    title := some (.str "WRONG".toList)
    publication_date := some (.str "WRONG".toList)
    pmid := some (.str "WRONG".toList)
    abstract := some (.str "WRONG".toList) }

def overlaidResult : PaperAnalysis :=
  ⟨"Real title".toList, some "Jan 2020".toList, true, ['e'], none, none, none, none,
   none, none, some "42".toList, some "Real abstract".toList⟩

theorem c1_witness :
    analyze_paper bibFixture (Except.ok lyingPayload) = Except.ok overlaidResult
    ∧ (overlaidResult.title = bibFixture.title
       ∧ overlaidResult.publication_date = some bibFixture.publication_date
       ∧ overlaidResult.pmid = some bibFixture.pmid
       ∧ overlaidResult.abstract = some bibFixture.abstract) :=
  ⟨rfl, c1_overlay_trusted_fields lyingPayload bibFixture overlaidResult rfl⟩

/-- Claim C4: a failing collaborator response in the middle of a run is
caught — it contributes one surfaced diagnostic and no result — and the
output is exactly the concatenation, in input order, of what the records
before and after it produce. -/
theorem c4_failure_isolation (ps1 ps2 : List RawParsed) (p : RawParsed)
    (cs1 cs2 : List (Except PyErr RawPayload)) (e : PyErr)
    (hlen : cs1.length = ps1.length) :
    run_analysis_loop (ps1 ++ p :: ps2) (cs1 ++ Except.error e :: cs2)
      = ((run_analysis_loop ps1 cs1).1 ++ (run_analysis_loop ps2 cs2).1,
         (run_analysis_loop ps1 cs1).2 ++ (p.title, e) :: (run_analysis_loop ps2 cs2).2) := by
  induction ps1 generalizing cs1 with
  | nil =>
    cases cs1 with
    | nil => simp [run_analysis_loop, analyze_paper, evaluate_paper]
    | cons c cs => exact absurd hlen (by simp)
  | cons p1 ps1' ih =>
    cases cs1 with
    | nil => exact absurd hlen (by simp)
    | cons c cs1' =>
      have hlen' : cs1'.length = ps1'.length := by simpa using hlen
      cases hb : analyze_paper p1 c with
      | ok a =>
        simp [run_analysis_loop, hb, ih cs1' hlen']
      | error e2 =>
        simp [run_analysis_loop, hb, ih cs1' hlen']

/-- The papers of the five-record scenario. -/
def bibN (n : Char) : RawParsed := ⟨[n], ['T', n], ['A', n], ['D', n]⟩

/-- The analysis a paper gets from `basePayload` after the overlay. -/
def expAnalysis (p : RawParsed) : PaperAnalysis :=
  ⟨p.title, some p.publication_date, true, ['e'], none, none, none, none, none, none,
   some p.pmid, some p.abstract⟩

theorem c4_witness :
    run_analysis_loop ([bibN '1', bibN '2'] ++ bibN '3' :: [bibN '4', bibN '5'])
        ([Except.ok basePayload, Except.ok basePayload]
          ++ Except.error schemaErr :: [Except.ok basePayload, Except.ok basePayload])
      = ([expAnalysis (bibN '1'), expAnalysis (bibN '2'),
          expAnalysis (bibN '4'), expAnalysis (bibN '5')],
         [((bibN '3').title, schemaErr)]) := by
  rw [c4_failure_isolation [bibN '1', bibN '2'] [bibN '4', bibN '5'] (bibN '3')
    [Except.ok basePayload, Except.ok basePayload]
    [Except.ok basePayload, Except.ok basePayload] schemaErr rfl]
  rfl

theorem c7_amended_witness :
    ([recRelevant].filter (fun a => a.is_relevant) ≠ []
        ∧ save_candidates [recRelevant] (some [model_dump recIrrelevant])
            = some [model_dump recRelevant])
    ∧ ([recIrrelevant].filter (fun a => a.is_relevant) = []
        ∧ save_candidates [recIrrelevant] none = none) :=
  ⟨⟨by decide, (c7_amended_conditional_overwrite [recRelevant] (some [model_dump recIrrelevant])).1 (by decide)⟩,
   ⟨by decide, (c7_amended_conditional_overwrite [recIrrelevant] none).2 (by decide)⟩⟩

/-! ## Claim C6: invariants of the parser output -/

/-- `l` contains two adjacent spaces. -/
def hasDoubleSpace : List Char → Bool
  | c :: d :: rest => (c == ' ' && d == ' ') || hasDoubleSpace (d :: rest)
  | _ => false

/-- A collapsed string: its only whitespace character is the plain space and
it has no run of two or more spaces (in particular no internal line break). -/
def cleanStr (l : List Char) : Prop :=
  (∀ c ∈ l, isWs c = true → c = ' ') ∧ hasDoubleSpace l = false

theorem not_beq_space {c : Char} (h : isWs c = false) : (c == ' ') = false := by
  cases hb : c == ' '
  · rfl
  · have hc : c = ' ' := by simpa using hb
    subst hc
    exact absurd h (by decide)

theorem sq_ws (l : List Char) :
    ∀ (b : Bool), ∀ c ∈ squeezeAux b l, isWs c = true → c = ' ' := by
  induction l with
  | nil => intro b c hc; simp [squeezeAux] at hc
  | cons d rest ih =>
    intro b c hc hw
    cases hd : isWs d with
    | true =>
      cases b with
      | true =>
        rw [squeezeAux, hd] at hc
        exact ih true c (by simpa using hc) hw
      | false =>
        rw [squeezeAux, hd] at hc
        simp at hc
        rcases hc with hc | hc
        · exact hc
        · exact ih true c hc hw
    | false =>
      rw [squeezeAux, hd] at hc
      simp at hc
      rcases hc with hc | hc
      · subst hc; rw [hd] at hw; cases hw
      · exact ih false c hc hw

theorem sq_head_not_ws (l : List Char) :
    ∀ c t, squeezeAux true l = c :: t → isWs c = false := by
  induction l with
  | nil => intro c t h; simp [squeezeAux] at h
  | cons d rest ih =>
    intro c t h
    cases hd : isWs d with
    | true =>
      rw [squeezeAux, hd] at h
      exact ih c t (by simpa using h)
    | false =>
      rw [squeezeAux, hd] at h
      simp at h
      rw [← h.1]
      exact hd

theorem hasDouble_two (c d : Char) (rest : List Char) :
    hasDoubleSpace (c :: d :: rest) = ((c == ' ' && d == ' ') || hasDoubleSpace (d :: rest)) :=
  rfl

theorem sq_noDouble (l : List Char) : ∀ b, hasDoubleSpace (squeezeAux b l) = false := by
  induction l with
  | nil => intro b; rfl
  | cons d rest ih =>
    intro b
    cases hd : isWs d with
    | true =>
      cases b with
      | true =>
        rw [squeezeAux, hd]
        show hasDoubleSpace (squeezeAux true rest) = false
        exact ih true
      | false =>
        rw [squeezeAux, hd]
        show hasDoubleSpace (' ' :: squeezeAux true rest) = false
        cases hx : squeezeAux true rest with
        | nil => rfl
        | cons x xs =>
          have hxw : isWs x = false := sq_head_not_ws rest x xs hx
          rw [hasDouble_two, not_beq_space hxw, ← hx]
          simpa using ih true
    | false =>
      rw [squeezeAux, hd]
      show hasDoubleSpace (d :: squeezeAux false rest) = false
      cases hx : squeezeAux false rest with
      | nil => rfl
      | cons x xs =>
        rw [hasDouble_two, not_beq_space hd, ← hx]
        simpa using ih false

theorem hasDouble_tail {d : Char} {rest : List Char}
    (h : hasDoubleSpace (d :: rest) = false) : hasDoubleSpace rest = false := by
  cases rest with
  | nil => rfl
  | cons x xs =>
    rw [hasDoubleSpace] at h
    exact (Bool.or_eq_false_iff.mp h).2

theorem dw_noDouble (p : Char → Bool) (l : List Char)
    (h : hasDoubleSpace l = false) : hasDoubleSpace (l.dropWhile p) = false := by
  induction l with
  | nil => exact h
  | cons d rest ih =>
    rw [List.dropWhile_cons]
    cases hp : p d with
    | true => simpa using ih (hasDouble_tail h)
    | false => simpa using h

theorem dtw_subset (l : List Char) : ∀ c ∈ dropTrailingWs l, c ∈ l := by
  induction l with
  | nil => intro c hc; simp [dropTrailingWs] at hc
  | cons d rest ih =>
    intro c hc
    rw [dropTrailingWs] at hc
    cases hr : dropTrailingWs rest with
    | nil =>
      rw [hr] at hc
      cases hw : isWs d with
      | true => rw [hw] at hc; simp at hc
      | false =>
        rw [hw] at hc
        simp at hc
        simp [hc]
    | cons x xs =>
      rw [hr] at hc
      simp at hc
      rcases hc with hc | hc
      · simp [hc]
      · exact List.mem_cons_of_mem d (ih c (by rw [hr]; exact List.mem_cons.mpr hc))

theorem dtw_head (l : List Char) :
    ∀ c t, dropTrailingWs l = c :: t → ∃ t2, l = c :: t2 := by
  cases l with
  | nil => intro c t h; simp [dropTrailingWs] at h
  | cons d rest =>
    intro c t h
    rw [dropTrailingWs] at h
    cases hr : dropTrailingWs rest with
    | nil =>
      rw [hr] at h
      cases hw : isWs d with
      | true => rw [hw] at h; simp at h
      | false => rw [hw] at h; simp at h; exact ⟨rest, by rw [h.1]⟩
    | cons x xs =>
      rw [hr] at h
      exact ⟨rest, by rw [(List.cons_eq_cons.mp h).1]⟩

theorem dtw_noDouble (l : List Char)
    (h : hasDoubleSpace l = false) : hasDoubleSpace (dropTrailingWs l) = false := by
  induction l with
  | nil => exact h
  | cons d rest ih =>
    rw [dropTrailingWs]
    cases hr : dropTrailingWs rest with
    | nil =>
      cases hw : isWs d with
      | true => rfl
      | false => rfl
    | cons x xs =>
      obtain ⟨t2, ht⟩ := dtw_head rest x xs hr
      rw [hasDoubleSpace]
      have hpair : (d == ' ' && x == ' ') = false := by
        rw [ht, hasDoubleSpace] at h
        exact (Bool.or_eq_false_iff.mp h).1
      rw [hpair, ← hr]
      simpa using ih (hasDouble_tail h)

/-- The pandas cleanup yields collapsed strings. -/
theorem collapseWs_clean (l : List Char) : cleanStr (collapseWs l) := by
  constructor
  · intro c hc hw
    have h1 : c ∈ (squeezeAux false l).dropWhile isWs :=
      dtw_subset _ c hc
    have h2 : c ∈ squeezeAux false l :=
      (List.dropWhile_sublist isWs).mem h1
    exact sq_ws l false c h2 hw
  · exact dtw_noDouble _ (dw_noDouble _ _ (sq_noDouble l false))

theorem digit_not_ws {c : Char} (h : isDigit c = true) : isWs c = false := by
  simp [isDigit] at h
  simp [isWs]
  omega

theorem sq_id (l : List Char) (h : ∀ c ∈ l, isWs c = false) :
    squeezeAux false l = l := by
  induction l with
  | nil => rfl
  | cons d rest ih =>
    rw [squeezeAux, h d (by simp)]
    simp only [Bool.false_eq_true, if_false]
    rw [ih (fun c hc => h c (List.mem_cons_of_mem d hc))]

theorem dw_id (l : List Char) (h : ∀ c ∈ l, isWs c = false) :
    l.dropWhile isWs = l := by
  cases l with
  | nil => rfl
  | cons d rest =>
    rw [List.dropWhile_cons, h d (by simp)]
    simp

theorem dtw_id (l : List Char) (h : ∀ c ∈ l, isWs c = false) :
    dropTrailingWs l = l := by
  induction l with
  | nil => rfl
  | cons d rest ih =>
    rw [dropTrailingWs, ih (fun c hc => h c (List.mem_cons_of_mem d hc))]
    cases rest with
    | nil => simp [h d (by simp)]
    | cons x xs => rfl

/-- The cleanup is the identity on all-digit strings (such as a pmid). -/
theorem collapseWs_id_digits (l : List Char) (h : ∀ c ∈ l, isDigit c = true) :
    collapseWs l = l := by
  have hw : ∀ c ∈ l, isWs c = false := fun c hc => digit_not_ws (h c hc)
  unfold collapseWs pyStrip
  rw [sq_id l hw, dw_id l hw, dtw_id l hw]

/-- A successful pmid search returns a non-empty run of digits. -/
theorem searchPmid_digits (l : List Char) :
    ∀ d, searchPmidNum l = some d → d ≠ [] ∧ ∀ c ∈ d, isDigit c = true := by
  induction l with
  | nil => intro d h; simp [searchPmidNum] at h
  | cons c0 rest ih =>
    intro d h
    rw [searchPmidNum] at h
    cases hcs : chopStart ['P', 'M', 'I', 'D', '-'] (c0 :: rest) with
    | none => rw [hcs] at h; exact ih d h
    | some s1 =>
      rw [hcs] at h
      simp only at h
      cases hde : ((s1.dropWhile isWs).takeWhile isDigit).isEmpty with
      | true => rw [hde] at h; simp at h; exact ih d h
      | false =>
        rw [hde] at h
        simp at h
        refine ⟨?_, ?_⟩
        · rw [← h]; exact List.isEmpty_eq_false.mp hde
        · intro c hc
          rw [← h] at hc
          exact List.mem_takeWhile_imp hc

/-- Every marked chunk starts with the letter `P`. -/
theorem addMarkers_headP (es : List (List Char)) :
    ∀ e ∈ addMarkers es, ∃ t, e = 'P' :: t := by
  cases es with
  | nil => intro e he; simp [addMarkers] at he
  | cons e0 rest =>
    intro e he
    rw [addMarkers] at he
    rcases List.mem_cons.mp he with he | he
    · cases hp : pmidMarker.isPrefixOf e0 with
      | true =>
        rw [hp] at he
        simp at he
        obtain ⟨t, ht⟩ := List.isPrefixOf_iff_prefix.mp hp
        exact ⟨(['M', 'I', 'D', '-', ' '] : List Char) ++ t, by rw [he, ← ht]; rfl⟩
      | false =>
        rw [hp] at he
        simp at he
        exact ⟨(['M', 'I', 'D', '-', ' '] : List Char) ++ e0, by rw [he]; rfl⟩
    · obtain ⟨y, _, hy⟩ := List.mem_map.mp he
      exact ⟨(['M', 'I', 'D', '-', ' '] : List Char) ++ y, by rw [← hy]; rfl⟩

/-- A chunk starting with `P` never strips to empty. -/
theorem strip_headP (t : List Char) : (pyStrip ('P' :: t)).isEmpty = false := by
  have h1 : ('P' :: t).dropWhile isWs = 'P' :: t := by
    rw [List.dropWhile_cons, show isWs 'P' = false from by decide]
    simp
  unfold pyStrip
  rw [h1, dropTrailingWs]
  cases hr : dropTrailingWs t with
  | nil => simp [show isWs 'P' = false from by decide]
  | cons x xs => rfl

theorem parseEntries_length (es : List (List Char))
    (h : ∀ e ∈ es, (pyStrip e).isEmpty = false) :
    (parseEntries es).length
        + (es.filter (fun e => (parse_pubmed_entry e).pmid.isEmpty)).length
      = es.length := by
  induction es with
  | nil => rfl
  | cons e rest ih =>
    have he : (pyStrip e).isEmpty = false := h e (by simp)
    have ih' := ih (fun x hx => h x (List.mem_cons_of_mem e hx))
    cases hp : (parse_pubmed_entry e).pmid.isEmpty with
    | true =>
      have hstep : parseEntries (e :: rest) = parseEntries rest := by
        simp [parseEntries, he, hp]
      rw [hstep, List.filter_cons_of_pos (by simp [hp]), List.length_cons, List.length_cons]
      omega
    | false =>
      have hstep : parseEntries (e :: rest) = parse_pubmed_entry e :: parseEntries rest := by
        simp [parseEntries, he, hp]
      rw [hstep, List.filter_cons_of_neg (by simp [hp]), List.length_cons, List.length_cons]
      omega

theorem parseEntries_mem (es : List (List Char)) :
    ∀ r ∈ parseEntries es, ∃ e ∈ es,
      r = parse_pubmed_entry e ∧ (parse_pubmed_entry e).pmid.isEmpty = false := by
  induction es with
  | nil => intro r hr; simp [parseEntries] at hr
  | cons e rest ih =>
    intro r hr
    cases hs : (pyStrip e).isEmpty with
    | true =>
      have hstep : parseEntries (e :: rest) = parseEntries rest := by
        simp [parseEntries, hs]
      rw [hstep] at hr
      obtain ⟨x, hx, hx2⟩ := ih r hr
      exact ⟨x, List.mem_cons_of_mem e hx, hx2⟩
    | false =>
      cases hp : (parse_pubmed_entry e).pmid.isEmpty with
      | true =>
        have hstep : parseEntries (e :: rest) = parseEntries rest := by
          simp [parseEntries, hs, hp]
        rw [hstep] at hr
        obtain ⟨x, hx, hx2⟩ := ih r hr
        exact ⟨x, List.mem_cons_of_mem e hx, hx2⟩
      | false =>
        have hstep : parseEntries (e :: rest) = parse_pubmed_entry e :: parseEntries rest := by
          simp [parseEntries, hs, hp]
        rw [hstep] at hr
        rcases List.mem_cons.mp hr with hr | hr
        · exact ⟨e, by simp, hr, hp⟩
        · obtain ⟨x, hx, hx2⟩ := ih r hr
          exact ⟨x, List.mem_cons_of_mem e hx, hx2⟩

/-- Claim C6: every record in the parser output has a non-empty identifier
(the output count falls short of the chunk count by exactly the number of
chunks whose identifier extraction is empty), and whitespace inside every
string field of every output record is collapsed: no internal line breaks,
no runs of multiple spaces. -/
theorem c6_output_invariants (content : List Char) :
    ((parse_pubmed_file content).length
        + ((addMarkers (splitPM (replaceCRLF content))).filter
            (fun e => (parse_pubmed_entry e).pmid.isEmpty)).length
      = (addMarkers (splitPM (replaceCRLF content))).length)
    ∧ (∀ r ∈ parse_pubmed_file content,
        r.pmid ≠ [] ∧ cleanStr r.pmid ∧ cleanStr r.title ∧ cleanStr r.abstract
          ∧ cleanStr r.publication_date) := by
  have hstrip : ∀ e ∈ addMarkers (splitPM (replaceCRLF content)),
      (pyStrip e).isEmpty = false := by
    intro e he
    obtain ⟨t, ht⟩ := addMarkers_headP _ e he
    rw [ht]
    exact strip_headP t
  constructor
  · have := parseEntries_length _ hstrip
    unfold parse_pubmed_file
    rw [List.length_map]
    exact this
  · intro r hr
    unfold parse_pubmed_file at hr
    obtain ⟨p, hp, hpr⟩ := List.mem_map.mp hr
    obtain ⟨e, _, hpe, hne⟩ := parseEntries_mem _ p hp
    have hpe' : p.pmid
        = (match searchPmidNum e with | some d => d | none => ([] : List Char)) := by
      rw [hpe]; exact rfl
    have hpmid : p.pmid ≠ [] ∧ ∀ c ∈ p.pmid, isDigit c = true := by
      cases hs : searchPmidNum e with
      | none =>
        exfalso
        rw [hs] at hpe'
        simp at hpe'
        rw [hpe] at hpe'
        rw [hpe'] at hne
        simp at hne
      | some d =>
        rw [hs] at hpe'
        simp at hpe'
        rw [hpe']
        exact searchPmid_digits e d hs
    have hclean : r = cleanRecord p := hpr.symm
    refine ⟨?_, ?_, ?_, ?_, ?_⟩
    · rw [hclean]
      show collapseWs p.pmid ≠ []
      rw [collapseWs_id_digits _ hpmid.2]
      exact hpmid.1
    · rw [hclean]; exact collapseWs_clean _
    · rw [hclean]; exact collapseWs_clean _
    · rw [hclean]; exact collapseWs_clean _
    · rw [hclean]; exact collapseWs_clean _

theorem c6_witness :
    ((parse_pubmed_file
          ("PMID- 123\nTI  - Hello\n      World\nAB  - Some abstract text.\nDP  - 2020 Jan 15\n".toList)).length
        + ((addMarkers (splitPM (replaceCRLF
            ("PMID- 123\nTI  - Hello\n      World\nAB  - Some abstract text.\nDP  - 2020 Jan 15\n".toList)))).filter
            (fun e => (parse_pubmed_entry e).pmid.isEmpty)).length
      = (addMarkers (splitPM (replaceCRLF
          ("PMID- 123\nTI  - Hello\n      World\nAB  - Some abstract text.\nDP  - 2020 Jan 15\n".toList)))).length)
    ∧ ((⟨"123".toList, "Hello World".toList, "Some abstract text.".toList,
          "Jan 2020".toList⟩ : RawParsed).pmid ≠ []
        ∧ cleanStr (⟨"123".toList, "Hello World".toList, "Some abstract text.".toList,
            "Jan 2020".toList⟩ : RawParsed).pmid
        ∧ cleanStr (⟨"123".toList, "Hello World".toList, "Some abstract text.".toList,
            "Jan 2020".toList⟩ : RawParsed).title
        ∧ cleanStr (⟨"123".toList, "Hello World".toList, "Some abstract text.".toList,
            "Jan 2020".toList⟩ : RawParsed).abstract
        ∧ cleanStr (⟨"123".toList, "Hello World".toList, "Some abstract text.".toList,
            "Jan 2020".toList⟩ : RawParsed).publication_date) :=
  ⟨(c6_output_invariants _).1,
   (c6_output_invariants
      ("PMID- 123\nTI  - Hello\n      World\nAB  - Some abstract text.\nDP  - 2020 Jan 15\n".toList)).2
     _ (by decide)⟩

end PubMed
